import Mathlib

/-!
Verification of the bar-plot aggregation module (`src/DeepBayesMutSig/barplots.py`)
of the GenomeSigInfer / DeepBayesMutSig repository.

The module reshapes a wide mutation-frequency table into long-form
(context, position, base, value) records and renders them as grouped bar
charts appended to a PDF document.  We embed the data path of that module:
numeric cell values become `ℚ`, the pandas `NaN` produced by a failed regex
extraction becomes `Option.none`, exceptions become `Except`, and the
`with PdfPages(...)` scope becomes an explicit event trace.

The helper module (`helpers.py`: `MUTATION_LIST`, `generate_numbers`,
`generate_sequence`, `custom_sort_column_names`) is imported by the source
file but is not part of the sources; those definitions are modelled from the
specification and are marked as such in their doc comments.
-/

namespace Barplots

/-- The four bases iterated by `parse_lager_context_df`
(`amino = ["A", "C", "T", "G"]` in the source, in this order). -/
def amino : List Char := ['A', 'C', 'T', 'G']

/-- Modelled from the spec: `MUTATION_LIST` lives in the helpers module, which
is not among the sources.  The spec fixes it as the six canonical substitution
classes in the order C>A, C>G, C>T, T>A, T>C, T>G. -/
def MUTATION_LIST : List String := ["C>A", "C>G", "C>T", "T>A", "T>C", "T>G"]

/-- Modelled from the spec: the position-naming scheme of `generate_sequence`
(helpers module, not among the sources) is unspecified beyond being a fixed
scheme assigning one label per flanking position; we use a canonical injective
labelling where position `i` receives a label of length `i + 1`. -/
def posLabel (i : Nat) : String := String.mk (List.replicate (i + 1) 'p')

/-- Modelled from the spec: `generate_numbers` (helpers module, not among the
sources) yields the flanking-position indices into the mutation-type string;
the spec fixes only that there are `n = string length − 4` of them.  We model
it as the first `n` indices; the aggregation theorems below do not depend on
the concrete index values. -/
def generate_numbers (n : Nat) : List Nat := List.range n

/-- Modelled from the spec: `generate_sequence` (helpers module, not among the
sources) yields the `n` position labels paired with the indices of
`generate_numbers`. -/
def generate_sequence (n : Nat) : List String := (List.range n).map posLabel

/-- The `zip(context_index_list, seq)` generator of `parse_lager_context_df`. -/
def contextPairs (n : Nat) : List (Nat × String) :=
  (generate_numbers n).zip (generate_sequence n)

/-- One row of the three-column frame `col_df` built at the start of
`parse_lager_context_df`: the mutation-type key, the selected sample column's
numeric value, and the derived `context` entry (`none` models the pandas `NaN`
left by a failed regex extraction). -/
structure Row where
  mutationType : String
  value : ℚ
  context : Option String
deriving DecidableEq

/-- One long-form record appended to `result_df` by `parse_lager_context_df`:
`{"name": name, "context": mt, "variable": aa, "sbs": col, "value": v}`. -/
structure LongRow where
  name : String
  context : String
  var : Char
  sbs : String
  value : ℚ
deriving DecidableEq

/-- The rows selected for one substitution class:
`temp_df = col_df[(col_df["context"] == mt)]`.  A `none` context (pandas
`NaN`) compares unequal to every class. -/
def classRows (rows : List Row) (mt : String) : List Row :=
  rows.filter (fun r => r.context == some mt)

/-- The class total `total_sbs_mut = temp_df[col].sum()`. -/
def totalForClass (rows : List Row) (mt : String) : ℚ :=
  ((classRows rows mt).map (·.value)).sum

/-- Length of the first mutation-type string, `len(df["MutationType"][0])`
(the pandas lookup raises on an empty frame; the driver model turns the empty
case into an error, see `larger_context_barplot`). -/
def firstMutLen (rows : List Row) : Nat :=
  match rows with
  | [] => 0
  | r :: _ => r.mutationType.length

/-- One record of the inner loop body of `parse_lager_context_df`: the value is
`0` when the class total is zero, otherwise the sum of the column over the
class rows whose mutation-type string carries base `aa` at index `idx`
(`temp_df[temp_df["MutationType"].str[idx] == aa][col].sum()`; an out-of-range
index yields `NaN` in pandas and so excludes the row, matching `get?`). -/
def emitRow (temp : List Row) (total : ℚ) (col mt : String) (idx : Nat)
    (nm : String) (aa : Char) : LongRow :=
  { name := nm, context := mt, var := aa, sbs := col,
    value :=
      if total = 0 then 0
      else (((temp.filter
          (fun r => r.mutationType.data.get? idx == some aa)).map (·.value)).sum) }

/-- The records emitted for one substitution class `mt`: the two inner loops
(`for idx, name in contex_name_generator: for aa in amino:`) of
`parse_lager_context_df`. -/
def classBlock (rows : List Row) (col mt : String) : List LongRow :=
  (contextPairs (firstMutLen rows - 4)).flatMap
    (fun pr => amino.map
      (emitRow (classRows rows mt) (totalForClass rows mt) col mt pr.1 pr.2))

/-- The long-form frame built by `parse_lager_context_df(df, col)`:
for each class of `MUTATION_LIST`, for each (index, position-label) pair, for
each base, one appended record. -/
def parse_lager_context_df (rows : List Row) (col : String) : List LongRow :=
  MUTATION_LIST.flatMap (fun mt => classBlock rows col mt)

/-- A word character of the `\w` regex class (the module only feeds it ASCII
mutation-type strings). -/
def isWordChar (c : Char) : Bool := c.isAlphanum || c == '_'

/-- Truth of `isWordChar` under an optional lookup (a position past the end of
the string matches nothing). -/
def optWordChar : Option Char → Bool
  | some c => isWordChar c
  | none => false

/-- Candidate end positions for a match of `\w\[.*\]\w` starting at `i`: every
`j ≥ i + 2` holding `]` and followed by a word character.  The greedy `.*`
selects the last of these. -/
def bracketEnds (cs : List Char) (i : Nat) : List Nat :=
  (List.range cs.length).filter
    (fun j => decide (i + 2 ≤ j) && (cs.get? j == some ']') && optWordChar (cs.get? (j + 1)))

/-- The match of `\w\[.*\]\w` anchored at start position `i`, if any (word
character at `i`, `[` at `i + 1`, then the greedy run up to the last viable
`]` + word character). -/
def bracketMatchAt (cs : List Char) (i : Nat) : Option (List Char) :=
  if optWordChar (cs.get? i) && (cs.get? (i + 1) == some '[') then
    (bracketEnds cs i).getLast?.map (fun j => (cs.drop i).take (j + 2 - i))
  else none

/-- `df["MutationType"].str.extract(r"(\w\[.*\]\w)")` for one cell: the
leftmost match of the pattern, or `none` (pandas `NaN`) when the string fails
the bracket pattern. -/
def extract_context (s : String) : Option String :=
  ((List.range s.data.length).findSome? (fun i => bracketMatchAt s.data i)).map String.mk

/-- `str.extract(r"\[(.*?)\]")` for one cell: the characters strictly between
the first `[` and the first `]` after it (the lazy `.*?`), or `none`. -/
def extract_sub (s : String) : Option String :=
  ((List.range s.data.length).find? (fun i => s.data.get? i == some '[')).bind
    (fun i =>
      ((List.range s.data.length).find?
          (fun j => decide (i < j) && (s.data.get? j == some ']'))).map
        (fun j => String.mk ((s.data.drop (i + 1)).take (j - i - 1))))

/-- One row of the wide input frame handed to the two report drivers: the
mutation-type key, the named sample columns, and the `context` column (absent,
i.e. `none`, until `larger_context_barplot` assigns it). -/
structure DFRow where
  mutationType : String
  vals : List (String × ℚ)
  context : Option String
deriving DecidableEq

/-- The wide input frame: its sample column names (`df.columns` minus the
leading `MutationType` column and minus the trailing derived `context`
column) and its rows. -/
structure DF where
  sampleCols : List String
  rows : List DFRow
deriving DecidableEq

/-- Line 70 of the source:
`df_multi_contexct["context"] = df_multi_contexct["MutationType"].str.extract(r"(\w\[.*\]\w)")`
— an in-place assignment on the caller's frame, modelled as the post-call
state of that frame. -/
def set_context (df : DF) : DF :=
  { df with rows := df.rows.map (fun r => { r with context := extract_context r.mutationType }) }

/-- Sample-column lookup `df[col]` for one row (the drivers only look up
columns listed in `sampleCols`). -/
def getVal (r : DFRow) (c : String) : ℚ := (r.vals.lookup c).getD 0

/-- The three-column frame `col_df` that `parse_lager_context_df` builds for
one sample column. -/
def colView (df : DF) (c : String) : List Row :=
  df.rows.map (fun r => { mutationType := r.mutationType, value := getVal r c, context := r.context })

/-- Numeric value of a digit string (most significant digit first). -/
def digitsVal (cs : List Char) : Nat := cs.foldl (fun acc c => 10 * acc + (c.toNat - 48)) 0

/-- Modelled from the spec: `custom_sort_column_names` lives in the helpers
module, which is not among the sources.  The spec fixes the comparator to
order signature names with numeric suffixes by numeric value (SBS1, SBS2, ...,
SBS10, not lexicographically); we model it as the sort key splitting a name
into its non-digit prefix and the numeric value of its digit suffix. -/
def custom_sort_column_names (s : String) : String × Nat :=
  (String.mk (s.data.takeWhile (fun c => !c.isDigit)),
   digitsVal (s.data.dropWhile (fun c => !c.isDigit)))

/-- Lexicographic code-point comparison of character lists: python's `<` on
strings, as used inside its tuple comparison of sort keys. -/
def charListLt : List Char → List Char → Bool
  | [], [] => false
  | [], _ :: _ => true
  | _ :: _, [] => false
  | a :: as, b :: bs =>
    if a.toNat < b.toNat then true
    else if b.toNat < a.toNat then false
    else charListLt as bs

/-- Python string comparison `a < b` by code points. -/
def strLtB (a b : String) : Bool := charListLt a.data b.data

/-- Order on sort keys: python compares the key tuples lexicographically. -/
def keyLE (a b : String × Nat) : Prop :=
  strLtB a.1 b.1 = true ∨ (a.1 = b.1 ∧ a.2 ≤ b.2)

instance (a b : String × Nat) : Decidable (keyLE a b) := by unfold keyLE; infer_instance

/-- Column order induced by the `custom_sort_column_names` key. -/
def colLE (a b : String) : Prop := keyLE (custom_sort_column_names a) (custom_sort_column_names b)

instance (a b : String) : Decidable (colLE a b) := by unfold colLE; infer_instance

/-- `sorted(columns, key=custom_sort_column_names)`: modelled as a stable
insertion sort under the key order (python's sort is also stable, and for a
total key preorder the two stable sorts agree). -/
def sorted_columns (cols : List String) : List String := List.insertionSort colLE cols

/-- Observable life-cycle events of the output-document resource. -/
inductive Event where
  | opened (path : String)
  | page
  | closed
deriving DecidableEq

/-- The body of the `for col in sorted_columns` loop inside the `with` scope:
pages render in order until the first raised error, which aborts the loop. -/
def renderLoop {α ε β : Type} (render : α → Except ε β) :
    List α → List Event × Except ε (List β)
  | [] => ([], .ok [])
  | c :: cs =>
    match render c with
    | .error e => ([], .error e)
    | .ok b =>
      let rest := renderLoop render cs
      (.page :: rest.1, rest.2.map (fun bs => b :: bs))

/-- `with PdfPages(path) as pdf: for col in cols: ...` — the context manager
opens the document once and closes it exactly once on scope exit, also when
the loop body raises; any error still propagates in the second component. -/
def run_with_pdf {α ε β : Type} (path : String) (cols : List α)
    (render : α → Except ε β) : List Event × Except ε (List β) :=
  let res := renderLoop render cols
  (Event.opened path :: res.1 ++ [Event.closed], res.2)

/-- `larger_context_barplot(df_multi_contexct, folder_path)`: assigns the
`context` column in place, sorts the sample columns, and renders one parsed
page per column into `signatures.<rowCount>.pdf` inside the `PdfPages` scope.
First component: the post-call state of the caller's frame.  A column whose
parse yields no records models the raising pandas path (`df["MutationType"][0]`
on an empty frame, or the later `df["sbs"].unique()[0]` on an empty result
frame when the mutation-type strings have no flanking positions). -/
def larger_context_barplot (df : DF) (folder : String) :
    DF × (List Event × Except String (List (List LongRow))) :=
  let df2 := set_context df
  let cols := sorted_columns df.sampleCols
  (df2,
    run_with_pdf (folder ++ "/signatures." ++ Nat.repr df.rows.length ++ ".pdf") cols
      (fun c =>
        match parse_lager_context_df (colView df2 c) c with
        | [] => .error "KeyError"
        | p => .ok p))

/-- The data content of one `parse_96_df` page: per row the mutation-type key,
the class extracted by `str.extract(r"\[(.*?)\]")`, and the column value. -/
def parse_96_df (rows : List DFRow) (c : String) : List (String × Option String × ℚ) :=
  rows.map (fun r => (r.mutationType, extract_sub r.mutationType, getVal r c))

/-- `create_96_barplot(df, figure_folder)`: sorts the sample columns and
renders one page per column into `signatures.96.pdf` inside the `PdfPages`
scope. -/
def create_96_barplot (df : DF) (folder : String) :
    List Event × Except String (List (List (String × Option String × ℚ))) :=
  run_with_pdf (folder ++ "/signatures.96.pdf") (sorted_columns df.sampleCols)
    (fun c => .ok (parse_96_df df.rows c))

/-- `format_xlabels`: `f"{label[0]}{label[2]}{label[-1]}"` per label (python
indexing is total on the tokens the module feeds it; out-of-range indices are
modelled with a default character). -/
def format_xlabels (x_labels : List String) : List String :=
  x_labels.map (fun label =>
    String.mk [label.data.getD 0 ' ', label.data.getD 2 ' ', (label.data.getLast?).getD ' '])

/-- First-seen-order deduplication, with the already-seen values accumulated. -/
def uniqueAux (seen : List String) : List String → List String
  | [] => []
  | x :: xs => if x ∈ seen then uniqueAux seen xs else x :: uniqueAux (x :: seen) xs

/-- `Series.unique()` / `drop_duplicates()`: distinct values in first-seen
order. -/
def uniqueStrings (l : List String) : List String := uniqueAux [] l

/-- The bar geometry computed by `create_increased_context_barplot`: the x-axis
tick labels, the per-name-group lists of bar x-positions, and the bar width. -/
structure PageGeom where
  labels : List String
  x1 : List (List ℚ)
  w : ℚ
deriving DecidableEq

/-- Lines 100–121 of the source: `labels = df["context"].drop_duplicates()`,
`x0 = np.arange(len(labels))`, `names = df.name.unique()`, `stacks =
len(names)`, `w = 0.45`, and the `stacks == 2` / `stacks == 4` offset
branches (any other group count leaves `x1 = []`, so no bars are placed). -/
def create_increased_context_barplot (df : List LongRow) : PageGeom :=
  let labels := uniqueStrings (df.map (·.context))
  let x0 : List ℚ := (List.range labels.length).map (fun i => (i : ℚ))
  let names := uniqueStrings (df.map (·.name))
  let stackCount := names.length
  let w : ℚ := 45 / 100
  if stackCount = 2 then
    { labels := labels,
      x1 := [x0.map (fun x => x - w / (stackCount : ℚ)), x0.map (fun x => x + w / (stackCount : ℚ))],
      w := w }
  else if stackCount = 4 then
    let w2 : ℚ := 1 / 5
    { labels := labels,
      x1 := [x0.map (fun x => x - w2 * 4 / (stackCount : ℚ) - w2 / 2),
             x0.map (fun x => x - w2 * 2 / (stackCount : ℚ)),
             x0.map (fun x => x + w2 * 2 / (stackCount : ℚ)),
             x0.map (fun x => x + w2 * 4 / (stackCount : ℚ) + w2 / 2)],
      w := w2 }
  else { labels := labels, x1 := [], w := w }

/-- Test for the document-open event of a trace. -/
def isOpenEv : Event → Bool
  | .opened _ => true
  | _ => false

/-- Test for the document-close event of a trace. -/
def isCloseEv : Event → Bool
  | .closed => true
  | _ => false

/-- Spec-side emission order for Claim C5, built from the spec's words alone:
outermost the six substitution classes in the order C>A, C>G, C>T, T>A, T>C,
T>G, then the flanking positions in order, then the bases in the order
A, C, T, G; each record identified by its (class, position label, base) key. -/
def expected_panel_order (n : Nat) : List (String × String × Char) :=
  MUTATION_LIST.flatMap (fun mt =>
    (List.range n).flatMap (fun i => amino.map (fun aa => (mt, posLabel i, aa))))

/-! Helper lemmas about the embedding. -/

lemma renderLoop_events {α ε β : Type} (render : α → Except ε β) (cols : List α) :
    ∀ e ∈ (renderLoop render cols).1, e = Event.page := by
  induction cols with
  | nil => simp [renderLoop]
  | cons c cs ih =>
    intro e he
    cases hr : render c <;> simp [renderLoop, hr] at he
    rcases he with rfl | he'
    · rfl
    · exact ih e he'

lemma renderLoop_all_ok {α ε β : Type} (render : α → Except ε β) (cols : List α)
    (h : ∀ c ∈ cols, (render c).isOk = true) :
    ∃ bs, (renderLoop render cols).2 = Except.ok bs := by
  induction cols with
  | nil => exact ⟨[], rfl⟩
  | cons c cs ih =>
    have hc := h c (List.mem_cons_self _ _)
    cases hr : render c with
    | error e => rw [hr] at hc; simp [Except.isOk, Except.toBool] at hc
    | ok b =>
      obtain ⟨bs, hbs⟩ := ih (fun x hx => h x (List.mem_cons_of_mem _ hx))
      exact ⟨b :: bs, by simp [renderLoop, hr, hbs, Except.map]⟩

lemma run_with_pdf_trace_shape {α ε β : Type} (path : String) (cols : List α)
    (render : α → Except ε β) :
    ((run_with_pdf path cols render).1.filter isOpenEv).length = 1 ∧
    ((run_with_pdf path cols render).1.filter isCloseEv).length = 1 ∧
    (run_with_pdf path cols render).1.getLast? = some Event.closed := by
  have hev := renderLoop_events render cols
  have hfo : (renderLoop render cols).1.filter isOpenEv = [] :=
    List.filter_eq_nil_iff.mpr (fun e he => by rw [hev e he]; simp [isOpenEv])
  have hfc : (renderLoop render cols).1.filter isCloseEv = [] :=
    List.filter_eq_nil_iff.mpr (fun e he => by rw [hev e he]; simp [isCloseEv])
  refine ⟨?_, ?_, ?_⟩
  · simp [run_with_pdf, List.filter_append, List.filter_cons, hfo, isOpenEv, isCloseEv]
  · simp [run_with_pdf, List.filter_append, List.filter_cons, hfc, isOpenEv, isCloseEv]
  · show (Event.opened path :: ((renderLoop render cols).1 ++ [Event.closed])).getLast?
        = some Event.closed
    rw [← List.cons_append, List.getLast?_concat]


lemma contextPairs_eq (n : Nat) :
    contextPairs n = (List.range n).map (fun i => (i, posLabel i)) := by
  have h := List.zip_map' id posLabel (List.range n)
  simpa [contextPairs, generate_numbers, generate_sequence] using h

lemma posLabel_injective {i j : Nat} (h : posLabel i = posLabel j) : i = j := by
  have h2 : List.replicate (i + 1) 'p' = List.replicate (j + 1) 'p' := congrArg String.data h
  have h3 := congrArg List.length h2
  simp at h3
  omega

lemma flatMap_eq_single {α β : Type} {l : List α} {a0 : α} {f : α → List β}
    (hnd : l.Nodup) (ha : a0 ∈ l) (hf : ∀ a ∈ l, a ≠ a0 → f a = []) :
    l.flatMap f = f a0 := by
  induction l with
  | nil => cases ha
  | cons a l ih =>
    rcases List.mem_cons.mp ha with rfl | ha'
    · have hrest : l.flatMap f = [] := List.flatMap_eq_nil_iff.mpr (fun x hx =>
        hf x (List.mem_cons_of_mem _ hx) (fun hxa => (List.nodup_cons.mp hnd).1 (hxa ▸ hx)))
      simp [hrest]
    · have ha0 : a ≠ a0 := fun h => (List.nodup_cons.mp hnd).1 (h ▸ ha')
      have hrec := ih (List.nodup_cons.mp hnd).2 ha'
        (fun x hx hne => hf x (List.mem_cons_of_mem _ hx) hne)
      simp [hf a (List.mem_cons_self _ _) ha0, hrec]

lemma mem_classBlock_eq {rows : List Row} {col mt : String} {lr : LongRow}
    (h : lr ∈ classBlock rows col mt) :
    ∃ pr ∈ contextPairs (firstMutLen rows - 4), ∃ aa ∈ amino,
      lr = emitRow (classRows rows mt) (totalForClass rows mt) col mt pr.1 pr.2 aa := by
  rcases List.mem_flatMap.mp h with ⟨pr, hpr, hm⟩
  rcases List.mem_map.mp hm with ⟨aa, haa, he⟩
  exact ⟨pr, hpr, aa, haa, he.symm⟩

lemma sum_filter_partition (g : Row → Option Char) (l : List Row)
    (h : ∀ r ∈ l, ∃ aa ∈ amino, g r = some aa) :
    (amino.map (fun aa => ((l.filter (fun r => g r == some aa)).map (·.value)).sum)).sum
      = (l.map (·.value)).sum := by
  induction l with
  | nil => simp [amino]
  | cons r rest ih =>
    obtain ⟨c, hcmem, hc⟩ := h r (List.mem_cons_self _ _)
    have ih' := ih (fun r' hr' => h r' (List.mem_cons_of_mem _ hr'))
    simp only [amino, List.map_cons, List.map_nil, List.sum_cons, List.sum_nil] at ih' ⊢
    simp only [List.filter_cons, hc]
    simp only [amino, List.mem_cons, List.not_mem_nil, or_false] at hcmem
    rcases hcmem with rfl | rfl | rfl | rfl <;> simp_all <;> linarith

lemma parse_lager_context_df_ne_nil {rows : List Row} {col : String}
    (h : 1 ≤ firstMutLen rows - 4) : parse_lager_context_df rows col ≠ [] := by
  intro hnil
  rw [parse_lager_context_df] at hnil
  have h1 := List.flatMap_eq_nil_iff.mp hnil "C>A" (by decide)
  rw [classBlock] at h1
  have h2 := List.flatMap_eq_nil_iff.mp h1 (0, posLabel 0) (by
    rw [contextPairs_eq]
    exact List.mem_map.mpr ⟨0, List.mem_range.mpr (by omega), rfl⟩)
  simp [amino] at h2

lemma sum_map_const_nat {α : Type} (l : List α) (c : Nat) :
    (l.map (fun _ => c)).sum = l.length * c := by
  induction l with
  | nil => simp
  | cons a l ih => simp [ih, Nat.succ_mul, Nat.add_comm]

lemma expected_panel_order_length (n : Nat) :
    (expected_panel_order n).length = 6 * 4 * n := by
  have hinner : ∀ mt : String,
      (((List.range n).flatMap (fun i => amino.map (fun aa => (mt, posLabel i, aa))))).length
        = n * 4 := by
    intro mt
    rw [List.length_flatMap]
    have hmc : (List.map (List.length ∘ fun i => amino.map fun aa => (mt, posLabel i, aa))
        (List.range n)) = List.map (fun _ => 4) (List.range n) := by
      apply List.map_congr_left
      intro i _
      simp [amino]
    rw [hmc, sum_map_const_nat, List.length_range]
  simp only [expected_panel_order, List.length_flatMap, MUTATION_LIST, List.map_cons,
    List.map_nil, List.sum_cons, List.sum_nil, Function.comp, hinner]
  omega

lemma charListLt_irrefl (l : List Char) : charListLt l l = false := by
  induction l with
  | nil => rfl
  | cons a as ih => simp [charListLt, ih]

lemma charListLt_trichotomy (as : List Char) : ∀ bs : List Char,
    charListLt as bs = true ∨ as = bs ∨ charListLt bs as = true := by
  induction as with
  | nil =>
    intro bs
    cases bs with
    | nil => exact Or.inr (Or.inl rfl)
    | cons b bs => exact Or.inl rfl
  | cons a as ih =>
    intro bs
    cases bs with
    | nil => exact Or.inr (Or.inr rfl)
    | cons b bs =>
      rcases Nat.lt_trichotomy a.toNat b.toNat with h | h | h
      · exact Or.inl (by simp [charListLt, h])
      · have hab : a = b := Char.ext (UInt32.toNat.inj h)
        subst hab
        rcases ih bs with h2 | h2 | h2
        · exact Or.inl (by simp [charListLt, Nat.lt_irrefl, h2])
        · exact Or.inr (Or.inl (by rw [h2]))
        · exact Or.inr (Or.inr (by simp [charListLt, Nat.lt_irrefl, h2]))
      · exact Or.inr (Or.inr (by simp [charListLt, h]))

lemma charListLt_trans : ∀ (as bs cs : List Char),
    charListLt as bs = true → charListLt bs cs = true → charListLt as cs = true := by
  intro as
  induction as with
  | nil =>
    intro bs cs h1 h2
    cases bs with
    | nil => exact h2
    | cons b bs =>
      cases cs with
      | nil => simp [charListLt] at h2
      | cons c cs => rfl
  | cons a as ih =>
    intro bs cs h1 h2
    cases bs with
    | nil => simp [charListLt] at h1
    | cons b bs =>
      cases cs with
      | nil => simp [charListLt] at h2
      | cons c cs =>
        simp only [charListLt] at h1 h2 ⊢
        have key1 : a.toNat < b.toNat ∨ (a.toNat = b.toNat ∧ charListLt as bs = true) := by
          by_cases hx : a.toNat < b.toNat
          · exact Or.inl hx
          · by_cases hy : b.toNat < a.toNat
            · rw [if_neg hx, if_pos hy] at h1
              exact absurd h1 (by simp)
            · rw [if_neg hx, if_neg hy] at h1
              exact Or.inr ⟨by omega, h1⟩
        have key2 : b.toNat < c.toNat ∨ (b.toNat = c.toNat ∧ charListLt bs cs = true) := by
          by_cases hx : b.toNat < c.toNat
          · exact Or.inl hx
          · by_cases hy : c.toNat < b.toNat
            · rw [if_neg hx, if_pos hy] at h2
              exact absurd h2 (by simp)
            · rw [if_neg hx, if_neg hy] at h2
              exact Or.inr ⟨by omega, h2⟩
        rcases key1 with hk1 | ⟨hk1, hr1⟩ <;> rcases key2 with hk2 | ⟨hk2, hr2⟩
        · rw [if_pos (by omega)]
        · rw [if_pos (by omega)]
        · rw [if_pos (by omega)]
        · rw [if_neg (by omega), if_neg (by omega)]
          exact ih bs cs hr1 hr2

instance : IsTotal String colLE := ⟨by
  intro a b
  unfold colLE keyLE
  rcases charListLt_trichotomy (custom_sort_column_names a).1.data
      (custom_sort_column_names b).1.data with h | h | h
  · exact Or.inl (Or.inl h)
  · have hs : (custom_sort_column_names a).1 = (custom_sort_column_names b).1 := String.ext h
    rcases Nat.le_total (custom_sort_column_names a).2 (custom_sort_column_names b).2 with h2 | h2
    · exact Or.inl (Or.inr ⟨hs, h2⟩)
    · exact Or.inr (Or.inr ⟨hs.symm, h2⟩)
  · exact Or.inr (Or.inl h)⟩

instance : IsTrans String colLE := ⟨by
  intro a b c hab hbc
  unfold colLE keyLE at hab hbc ⊢
  rcases hab with h1 | ⟨h1, h1'⟩ <;> rcases hbc with h2 | ⟨h2, h2'⟩
  · exact Or.inl (charListLt_trans _ _ _ h1 h2)
  · exact Or.inl (by rw [← h2]; exact h1)
  · exact Or.inl (by rw [h1]; exact h2)
  · exact Or.inr ⟨h1.trans h2, le_trans h1' h2'⟩⟩

lemma dropWhile_eq_nil_of_all {α : Type} (l : List α) (pr : α → Bool)
    (h : ∀ a ∈ l, pr a = true) : l.dropWhile pr = [] := by
  induction l with
  | nil => rfl
  | cons a l ih =>
    simp [List.dropWhile_cons, h a (List.mem_cons_self _ _),
      ih (fun x hx => h x (List.mem_cons_of_mem _ hx))]

lemma custom_key_split (p : String) (hp : ∀ c ∈ p.data, c.isDigit = false) (ds : List Char)
    (hne : ds ≠ []) (hds : ∀ d ∈ ds, d.isDigit = true) :
    custom_sort_column_names (p ++ String.mk ds) = (p, digitsVal ds) := by
  have hdata : (p ++ String.mk ds).data = p.data ++ ds := String.data_append p (String.mk ds)
  unfold custom_sort_column_names
  rw [hdata]
  have ht : List.takeWhile (fun c => !c.isDigit) (p.data ++ ds) = p.data := by
    rw [List.takeWhile_append]
    have h1 : List.takeWhile (fun c => !c.isDigit) p.data = p.data :=
      List.takeWhile_eq_self_iff.mpr (fun x hx => by simp [hp x hx])
    rw [h1, if_pos rfl]
    cases ds with
    | nil => exact absurd rfl hne
    | cons d ds' =>
      have hd : (!d.isDigit) = false := by simp [hds d (List.mem_cons_self _ _)]
      simp [List.takeWhile_cons, hd]
  have hd2 : List.dropWhile (fun c => !c.isDigit) (p.data ++ ds) = ds := by
    rw [List.dropWhile_append]
    have h0 : List.dropWhile (fun c => !c.isDigit) p.data = [] :=
      dropWhile_eq_nil_of_all _ _ (fun x hx => by simp [hp x hx])
    rw [h0]
    simp only [List.isEmpty_nil, if_true]
    cases ds with
    | nil => exact absurd rfl hne
    | cons d ds' =>
      have hd : (!d.isDigit) = false := by simp [hds d (List.mem_cons_self _ _)]
      simp [List.dropWhile_cons, hd]
  rw [ht, hd2]

/-- Claim C2: for every input table, sample column, and substitution class
whose column total over the class rows is zero (in particular when the class
has no rows), `parse_lager_context_df` emits the value exactly `0` for every
record of that class — all four bases at every flanking position — and the
computation is total (no failure, no `NaN`: the zero branch is taken before
any aggregation is attempted). -/
theorem parse_zero_total_emits_zero (rows : List Row) (col mt : String)
    (h0 : totalForClass rows mt = 0) :
    ∀ lr ∈ parse_lager_context_df rows col, lr.context = mt → lr.value = 0 := by
  intro lr hlr hctx
  rcases List.mem_flatMap.mp hlr with ⟨mt', _, hblk⟩
  rcases mem_classBlock_eq hblk with ⟨pr, _, aa, _, rfl⟩
  have hmm : mt' = mt := by simpa [emitRow] using hctx
  subst hmm
  simp [emitRow, h0]

/-- Witness for Claim C2 at a concrete table: the class `C>G` has no rows, and
every record emitted for it carries value `0`. -/
theorem parse_zero_total_emits_zero_witness :
    totalForClass [({ mutationType := "AAAAA", value := 5, context := some "C>A" } : Row)] "C>G" = 0 ∧
    (∀ lr ∈ parse_lager_context_df
        [({ mutationType := "AAAAA", value := 5, context := some "C>A" } : Row)] "S1",
      lr.context = "C>G" → lr.value = 0) :=
  ⟨by rfl, parse_zero_total_emits_zero _ "S1" "C>G" (by rfl)⟩

/-- Claim C1: for every input table, sample column, and substitution class
with strictly positive column total over the class rows, and assuming every
flanking-position character of every mutation-type string in the class is one
of A, C, T, G, the four records emitted for a fixed (class, flanking position,
column) — one per base — have values summing exactly to `totalForClass`. -/
theorem parse_base_sum_eq_total (rows : List Row) (col mt : String)
    (idx : Nat) (nm : String)
    (hmt : mt ∈ MUTATION_LIST)
    (hpair : (idx, nm) ∈ contextPairs (firstMutLen rows - 4))
    (hpos : 0 < totalForClass rows mt)
    (hbase : ∀ r ∈ classRows rows mt, ∀ i ∈ generate_numbers (firstMutLen rows - 4),
        ∃ aa ∈ amino, r.mutationType.data.get? i = some aa) :
    (((parse_lager_context_df rows col).filter
        (fun lr => lr.context == mt && lr.name == nm)).map (·.value)).sum
      = totalForClass rows mt := by
  rw [contextPairs_eq] at hpair
  rcases List.mem_map.mp hpair with ⟨i0, hi0, heq⟩
  injection heq with h1 h2
  subst h1
  subst h2
  have hA : (parse_lager_context_df rows col).filter
      (fun lr => lr.context == mt && lr.name == posLabel i0)
      = (classBlock rows col mt).filter (fun lr => lr.context == mt && lr.name == posLabel i0) := by
    rw [parse_lager_context_df, List.filter_flatMap]
    exact flatMap_eq_single (by decide) hmt (fun mt' _ hne => by
      apply List.filter_eq_nil_iff.mpr
      intro lr hlr
      rcases mem_classBlock_eq hlr with ⟨pr, _, aa, _, rfl⟩
      simp [emitRow, hne])
  have hB : (classBlock rows col mt).filter
      (fun lr => lr.context == mt && lr.name == posLabel i0)
      = amino.map (emitRow (classRows rows mt) (totalForClass rows mt) col mt i0 (posLabel i0)) := by
    rw [classBlock, contextPairs_eq, List.flatMap_map, List.filter_flatMap]
    rw [flatMap_eq_single
      (List.nodup_range (firstMutLen rows - 4)) hi0 (fun i _ hne => by
        apply List.filter_eq_nil_iff.mpr
        intro lr hlr
        rcases List.mem_map.mp hlr with ⟨aa, _, rfl⟩
        have hpl : ¬ posLabel i = posLabel i0 := fun hEq => hne (posLabel_injective hEq)
        simp [emitRow, hpl])]
    apply List.filter_eq_self.mpr
    intro lr hlr
    rcases List.mem_map.mp hlr with ⟨aa, _, rfl⟩
    simp [emitRow]
  rw [hA, hB, List.map_map]
  have hne0 : totalForClass rows mt ≠ 0 := ne_of_gt hpos
  have hval : ((·.value) ∘ emitRow (classRows rows mt) (totalForClass rows mt) col mt i0 (posLabel i0))
      = fun aa => (((classRows rows mt).filter
          (fun r => r.mutationType.data.get? i0 == some aa)).map (·.value)).sum := by
    funext aa
    simp [emitRow, Function.comp, hne0]
  rw [hval]
  exact sum_filter_partition (fun r => r.mutationType.data.get? i0) (classRows rows mt)
    (fun r hr => hbase r hr i0 (by simpa [generate_numbers] using hi0))

/-- Witness for Claim C1 at a concrete one-row table: the class `C>A` has
total `1 > 0`, the single flanking position carries base A in every class row,
and the four emitted values at that position sum to the class total. -/
theorem parse_base_sum_eq_total_witness :
    ("C>A" ∈ MUTATION_LIST) ∧
    ((0, posLabel 0) ∈ contextPairs
      (firstMutLen [({ mutationType := "AAAAA", value := 1, context := some "C>A" } : Row)] - 4)) ∧
    (0 < totalForClass [({ mutationType := "AAAAA", value := 1, context := some "C>A" } : Row)] "C>A") ∧
    ((((parse_lager_context_df
          [({ mutationType := "AAAAA", value := 1, context := some "C>A" } : Row)] "S1").filter
        (fun lr => lr.context == "C>A" && lr.name == posLabel 0)).map (·.value)).sum
      = totalForClass [({ mutationType := "AAAAA", value := 1, context := some "C>A" } : Row)] "C>A") :=
  ⟨by decide, by decide, by norm_num [totalForClass, classRows],
    parse_base_sum_eq_total _ "S1" "C>A" 0 (posLabel 0) (by decide) (by decide)
      (by norm_num [totalForClass, classRows])
      (by
        intro r hr i hi
        simp [classRows] at hr
        subst hr
        simp [generate_numbers, firstMutLen, List.mem_range] at hi
        have hlen : ("AAAAA" : String).length = 5 := rfl
        have hi0 : i = 0 := by omega
        subst hi0
        exact ⟨'A', by decide, by decide⟩)⟩

/-- Claim C5: for every input table and sample column,
`parse_lager_context_df` emits its long-form records in the fixed
deterministic order given by `expected_panel_order`: outermost over the six
substitution classes in the order C>A, C>G, C>T, T>A, T>C, T>G, then over the
flanking positions, then over the bases in the order A, C, T, G; with
`L - 4` flanking positions for `L` the length of the table's first
mutation-type string, so exactly `6 * 4 * (L - 4)` records are emitted. -/
theorem parse_emission_order (rows : List Row) (col : String) (r0 : Row)
    (h : rows.head? = some r0) :
    (parse_lager_context_df rows col).map (fun lr => (lr.context, lr.name, lr.var))
        = expected_panel_order (r0.mutationType.length - 4) ∧
    (parse_lager_context_df rows col).length
        = 6 * 4 * (r0.mutationType.length - 4) := by
  have hL : firstMutLen rows = r0.mutationType.length := by
    cases rows with
    | nil => simp at h
    | cons a l =>
      simp at h
      rw [firstMutLen, h]
  have hmap : (parse_lager_context_df rows col).map (fun lr => (lr.context, lr.name, lr.var))
      = expected_panel_order (firstMutLen rows - 4) := by
    simp only [parse_lager_context_df, classBlock, contextPairs_eq, expected_panel_order,
      List.map_flatMap, List.flatMap_map, List.map_map]
    rfl
  refine ⟨by rw [hmap, hL], ?_⟩
  have hlen := congrArg List.length hmap
  rw [List.length_map] at hlen
  rw [hlen, expected_panel_order_length, hL]

/-- Witness for Claim C5 at a concrete one-row table with the 7-character
mutation-type key `A[C>A]A`: exactly `6 * 4 * 3 = 72` records, in the
expected order. -/
theorem parse_emission_order_witness :
    ([({ mutationType := "A[C>A]A", value := 1, context := some "C>A" } : Row)].head?
        = some ({ mutationType := "A[C>A]A", value := 1, context := some "C>A" } : Row)) ∧
    ((parse_lager_context_df
          [({ mutationType := "A[C>A]A", value := 1, context := some "C>A" } : Row)] "S1").map
        (fun lr => (lr.context, lr.name, lr.var))
      = expected_panel_order
          (({ mutationType := "A[C>A]A", value := 1, context := some "C>A" } : Row).mutationType.length - 4) ∧
     (parse_lager_context_df
          [({ mutationType := "A[C>A]A", value := 1, context := some "C>A" } : Row)] "S1").length
      = 6 * 4 *
          (({ mutationType := "A[C>A]A", value := 1, context := some "C>A" } : Row).mutationType.length - 4)) :=
  ⟨rfl, parse_emission_order _ "S1" _ rfl⟩

/-- Counterexample to Claim C6 as stated: for a token with two flanking bases
on each side the third character read by `format_xlabels` is the literal `[`,
not the substituted-from base, so `AA[C>A]AA` maps to `A[A` and not to the
claimed `ACA`. -/
theorem format_xlabels_longer_flank_cex :
    format_xlabels ["AA[C>A]AA"] = ["A[A"] ∧ format_xlabels ["AA[C>A]AA"] ≠ ["ACA"] := by
  decide

/-- Claim C6 (amended): `format_xlabels` reads the characters at index 0,
index 2 and the last index of each token; on trinucleotide-context tokens
`X[A>B]Y` this is exactly (first flanking base, substituted-from base, last
flanking base), giving the literal mappings `A[C>A]A → ACA` and
`T[G>C]T → TGT`; for tokens with more flanking bases index 2 is not the
substituted-from base. -/
theorem format_xlabels_trinucleotide :
    (∀ x a b y : Char,
      format_xlabels [String.mk [x, '[', a, '>', b, ']', y]] = [String.mk [x, a, y]]) ∧
    format_xlabels ["A[C>A]A", "T[G>C]T"] = ["ACA", "TGT"] :=
  ⟨fun _ _ _ _ => rfl, rfl⟩

/-- Claim C7: when the long-form input has exactly 2 distinct name groups,
`create_increased_context_barplot` places the two bars symmetrically around
each context tick `x`: the left group at `x - w / 2` and the right group at
`x + w / 2` for the bar width `w = 0.45`. -/
theorem increased_context_two_group_geometry (df : List LongRow)
    (h2 : (uniqueStrings (df.map (·.name))).length = 2) :
    create_increased_context_barplot df =
      { labels := uniqueStrings (df.map (·.context)),
        x1 := [((List.range (uniqueStrings (df.map (·.context))).length).map
                  (fun i => (i : ℚ))).map (fun x => x - (45 / 100 : ℚ) / 2),
               ((List.range (uniqueStrings (df.map (·.context))).length).map
                  (fun i => (i : ℚ))).map (fun x => x + (45 / 100 : ℚ) / 2)],
        w := 45 / 100 } := by
  simp only [create_increased_context_barplot, h2]
  norm_num

/-- Witness for Claim C7 at a concrete two-name long-form table. -/
theorem increased_context_two_group_geometry_witness :
    ((uniqueStrings (([({ name := "p", context := "C>A", var := 'A', sbs := "S1", value := 1 } : LongRow),
        ({ name := "pp", context := "C>A", var := 'A', sbs := "S1", value := 2 } : LongRow)]).map
          (·.name))).length = 2) ∧
    create_increased_context_barplot
        [({ name := "p", context := "C>A", var := 'A', sbs := "S1", value := 1 } : LongRow),
         ({ name := "pp", context := "C>A", var := 'A', sbs := "S1", value := 2 } : LongRow)]
      = { labels := uniqueStrings
            (([({ name := "p", context := "C>A", var := 'A', sbs := "S1", value := 1 } : LongRow),
               ({ name := "pp", context := "C>A", var := 'A', sbs := "S1", value := 2 } : LongRow)]).map
              (·.context)),
          x1 := [((List.range (uniqueStrings
                    (([({ name := "p", context := "C>A", var := 'A', sbs := "S1", value := 1 } : LongRow),
                       ({ name := "pp", context := "C>A", var := 'A', sbs := "S1", value := 2 } : LongRow)]).map
                      (·.context))).length).map (fun i => (i : ℚ))).map
                   (fun x => x - (45 / 100 : ℚ) / 2),
                 ((List.range (uniqueStrings
                    (([({ name := "p", context := "C>A", var := 'A', sbs := "S1", value := 1 } : LongRow),
                       ({ name := "pp", context := "C>A", var := 'A', sbs := "S1", value := 2 } : LongRow)]).map
                      (·.context))).length).map (fun i => (i : ℚ))).map
                   (fun x => x + (45 / 100 : ℚ) / 2)],
          w := 45 / 100 } :=
  ⟨by decide, increased_context_two_group_geometry _ (by decide)⟩

/-- Claim C9: `larger_context_barplot` opens its output document at
`<folder>/signatures.<rowCount>.pdf` and `create_96_barplot` opens its output
document at `<folder>/signatures.96.pdf`. -/
theorem report_output_filenames (df : DF) (folder : String) :
    (larger_context_barplot df folder).2.1.head?
        = some (Event.opened (folder ++ "/signatures." ++ Nat.repr df.rows.length ++ ".pdf")) ∧
    (create_96_barplot df folder).1.head?
        = some (Event.opened (folder ++ "/signatures.96.pdf")) :=
  ⟨rfl, rfl⟩

/-- Claim C10: `larger_context_barplot` mutates the caller's frame in place:
after the call the frame carries a `context` column holding the extracted
bracketed token of each row's mutation-type key (all other content unchanged),
so the caller's table is in general not left unchanged — witnessed by a
concrete table whose post-call state differs from its pre-call state. -/
theorem larger_context_barplot_sets_context :
    (∀ (df : DF) (folder : String),
      ((larger_context_barplot df folder).1).sampleCols = df.sampleCols ∧
      ((larger_context_barplot df folder).1).rows.map (·.mutationType)
          = df.rows.map (·.mutationType) ∧
      ((larger_context_barplot df folder).1).rows.map (·.vals)
          = df.rows.map (·.vals) ∧
      ((larger_context_barplot df folder).1).rows.map (·.context)
          = df.rows.map (fun r => extract_context r.mutationType)) ∧
    (larger_context_barplot
        { sampleCols := ["S1"],
          rows := [{ mutationType := "A[C>A]A", vals := [("S1", 1)], context := none }] } "out").1
      ≠ { sampleCols := ["S1"],
          rows := [{ mutationType := "A[C>A]A", vals := [("S1", 1)], context := none }] } := by
  constructor
  · intro df folder
    refine ⟨rfl, ?_, ?_, ?_⟩ <;>
      simp [larger_context_barplot, set_context, List.map_map, Function.comp]
  · decide

/-- Claim C8: for every report call the output document is opened once and
closed exactly once, with the close as the final event before the call
returns — for an arbitrary (possibly failing) per-column renderer inside the
`with` scope, and in particular for both report drivers. -/
theorem report_document_scope :
    (∀ {α ε β : Type} (path : String) (cols : List α) (render : α → Except ε β),
      ((run_with_pdf path cols render).1.filter isOpenEv).length = 1 ∧
      ((run_with_pdf path cols render).1.filter isCloseEv).length = 1 ∧
      (run_with_pdf path cols render).1.getLast? = some Event.closed) ∧
    (∀ (df : DF) (folder : String),
      ((larger_context_barplot df folder).2.1.filter isOpenEv).length = 1 ∧
      ((larger_context_barplot df folder).2.1.filter isCloseEv).length = 1 ∧
      (larger_context_barplot df folder).2.1.getLast? = some Event.closed) ∧
    (∀ (df : DF) (folder : String),
      ((create_96_barplot df folder).1.filter isOpenEv).length = 1 ∧
      ((create_96_barplot df folder).1.filter isCloseEv).length = 1 ∧
      (create_96_barplot df folder).1.getLast? = some Event.closed) :=
  ⟨fun path cols render => run_with_pdf_trace_shape path cols render,
   fun _ _ => run_with_pdf_trace_shape _ _ _,
   fun _ _ => run_with_pdf_trace_shape _ _ _⟩

/-- Counterexample to Claim C3 as stated: on a concrete table containing the
malformed mutation-type string `XYZ` (no bracket-pattern match), the
extraction yields no context, yet `larger_context_barplot` completes with an
`ok` result — no error is raised or reported — and the malformed row belongs
to no substitution class of the aggregation (it is silently dropped). -/
theorem malformed_row_no_error_cex :
    extract_context "XYZ" = none ∧
    ((larger_context_barplot
        { sampleCols := ["S1"],
          rows := [{ mutationType := "A[C>A]A", vals := [("S1", 1)], context := none },
                   { mutationType := "XYZ", vals := [("S1", 5)], context := none }] }
        "out").2.2).isOk = true ∧
    (MUTATION_LIST.all (fun mt =>
      !(decide (({ mutationType := "XYZ", value := 5, context := none } : Row) ∈
        classRows
          (colView
            (larger_context_barplot
              { sampleCols := ["S1"],
                rows := [{ mutationType := "A[C>A]A", vals := [("S1", 1)], context := none },
                         { mutationType := "XYZ", vals := [("S1", 5)], context := none }] }
              "out").1 "S1") mt)))) = true := by
  refine ⟨by decide, by decide, by decide⟩

/-- Claim C3 (amended): a mutation-type string failing the bracket pattern
yields no extracted context (`none`, the pandas `NaN`); such a row then
matches no substitution class of the aggregation — it is silently dropped
from every class — and the report completes without raising (an `ok` result)
whenever the table is nonempty and its first mutation-type string has length
at least 5; no data error is surfaced to the caller. -/
theorem malformed_row_silently_dropped :
    (∀ (df : DF) (folder : String) (r0 : DFRow),
      df.rows.head? = some r0 → 5 ≤ r0.mutationType.length →
      ∃ pages, (larger_context_barplot df folder).2.2 = Except.ok pages) ∧
    (∀ (df : DF) (folder c : String) (r : Row),
      r ∈ colView (larger_context_barplot df folder).1 c →
      extract_context r.mutationType = none →
      ∀ mt : String, r ∉ classRows (colView (larger_context_barplot df folder).1 c) mt) := by
  constructor
  · intro df folder r0 hhead hlen
    obtain ⟨rest, hr⟩ : ∃ rest, df.rows = r0 :: rest := by
      cases hdr : df.rows with
      | nil => rw [hdr] at hhead; simp at hhead
      | cons a l =>
        rw [hdr] at hhead
        simp at hhead
        exact ⟨l, by rw [hhead]⟩
    show ∃ pages, (larger_context_barplot df folder).2.2 = Except.ok pages
    simp only [larger_context_barplot, run_with_pdf]
    apply renderLoop_all_ok
    intro c _
    have hfml : firstMutLen (colView (set_context df) c) = r0.mutationType.length := by
      simp [set_context, colView, hr, firstMutLen]
    have hne : parse_lager_context_df (colView (set_context df) c) c ≠ [] :=
      parse_lager_context_df_ne_nil (by rw [hfml]; omega)
    cases hp : parse_lager_context_df (colView (set_context df) c) c with
    | nil => exact absurd hp hne
    | cons a l => simp [hp, Except.isOk, Except.toBool]
  · intro df folder c r hr hex mt hmem
    have hctx := (List.mem_filter.mp hmem).2
    obtain ⟨dr, hdr, rfl⟩ := List.mem_map.mp hr
    obtain ⟨dr0, hdr0, rfl⟩ := List.mem_map.mp
      (show dr ∈ df.rows.map
          (fun r => { r with context := extract_context r.mutationType }) from hdr)
    simp at hctx hex
    rw [hex] at hctx
    simp at hctx

/-- Witness for the amended Claim C3 at the concrete malformed table: the
report completes with an `ok` result and the malformed row is absent from the
`C>A` class partition. -/
theorem malformed_row_silently_dropped_witness :
    (∃ pages,
      (larger_context_barplot
          { sampleCols := ["S1"],
            rows := [{ mutationType := "A[C>A]A", vals := [("S1", 1)], context := none },
                     { mutationType := "XYZ", vals := [("S1", 5)], context := none }] }
          "out").2.2 = Except.ok pages) ∧
    (({ mutationType := "XYZ", value := 5, context := none } : Row) ∉
      classRows
        (colView
          (larger_context_barplot
            { sampleCols := ["S1"],
              rows := [{ mutationType := "A[C>A]A", vals := [("S1", 1)], context := none },
                       { mutationType := "XYZ", vals := [("S1", 5)], context := none }] }
            "out").1 "S1") "C>A") :=
  ⟨malformed_row_silently_dropped.1 _ "out"
      { mutationType := "A[C>A]A", vals := [("S1", 1)], context := none } (by rfl) (by decide),
   malformed_row_silently_dropped.2 _ "out" "S1"
      { mutationType := "XYZ", value := 5, context := none } (by decide) (by decide) "C>A"⟩

/-- Claim C4: for every list of column names consisting of a shared non-digit
prefix with digit suffixes, the column sort used by both report operations is
a permutation ordered by the numeric value of the suffix, not
lexicographically; in particular `[SBS1, SBS2, SBS10, SBS3]` is ordered as
`[SBS1, SBS2, SBS3, SBS10]`. -/
theorem sorted_columns_numeric_order (p : String) (cols : List String)
    (hp : ∀ c ∈ p.data, c.isDigit = false)
    (h : ∀ c ∈ cols, ∃ ds, ds ≠ [] ∧ (∀ d ∈ ds, d.isDigit = true) ∧ c = p ++ String.mk ds) :
    (sorted_columns cols).Perm cols ∧
    List.Sorted (fun a b => (custom_sort_column_names a).2 ≤ (custom_sort_column_names b).2)
      (sorted_columns cols) ∧
    sorted_columns ["SBS1", "SBS2", "SBS10", "SBS3"] = ["SBS1", "SBS2", "SBS3", "SBS10"] := by
  refine ⟨List.perm_insertionSort _ _, ?_, by decide⟩
  have hsorted : List.Sorted colLE (sorted_columns cols) := List.sorted_insertionSort colLE cols
  have hmem : ∀ x ∈ sorted_columns cols, x ∈ cols := fun x hx =>
    (List.perm_insertionSort colLE cols).subset hx
  refine List.Pairwise.imp_of_mem ?_ hsorted
  intro a b ha hb hab
  obtain ⟨da, hda_ne, hda_dig, rfl⟩ := h a (hmem a ha)
  obtain ⟨db, hdb_ne, hdb_dig, rfl⟩ := h b (hmem b hb)
  have ka := custom_key_split p hp da hda_ne hda_dig
  have kb := custom_key_split p hp db hdb_ne hdb_dig
  unfold colLE keyLE at hab
  rw [ka, kb] at hab
  rcases hab with hlt | ⟨_, hle⟩
  · rw [show strLtB p p = charListLt p.data p.data from rfl, charListLt_irrefl] at hlt
    exact absurd hlt (by simp)
  · rw [ka, kb]
    exact hle

/-- Witness for Claim C4 at the concrete column list of the claim. -/
theorem sorted_columns_numeric_order_witness :
    (∀ c ∈ ["SBS1", "SBS2", "SBS10", "SBS3"],
      ∃ ds, ds ≠ [] ∧ (∀ d ∈ ds, d.isDigit = true) ∧ c = "SBS" ++ String.mk ds) ∧
    ((sorted_columns ["SBS1", "SBS2", "SBS10", "SBS3"]).Perm ["SBS1", "SBS2", "SBS10", "SBS3"] ∧
     List.Sorted (fun a b => (custom_sort_column_names a).2 ≤ (custom_sort_column_names b).2)
       (sorted_columns ["SBS1", "SBS2", "SBS10", "SBS3"]) ∧
     sorted_columns ["SBS1", "SBS2", "SBS10", "SBS3"] = ["SBS1", "SBS2", "SBS3", "SBS10"]) := by
  have hEx : ∀ c ∈ ["SBS1", "SBS2", "SBS10", "SBS3"],
      ∃ ds, ds ≠ [] ∧ (∀ d ∈ ds, d.isDigit = true) ∧ c = "SBS" ++ String.mk ds := by
    intro c hc
    simp only [List.mem_cons, List.not_mem_nil, or_false] at hc
    rcases hc with rfl | rfl | rfl | rfl
    · exact ⟨['1'], by decide, by decide, by decide⟩
    · exact ⟨['2'], by decide, by decide, by decide⟩
    · exact ⟨['1', '0'], by decide, by decide, by decide⟩
    · exact ⟨['3'], by decide, by decide, by decide⟩
  exact ⟨hEx, sorted_columns_numeric_order "SBS" _ (by decide) hEx⟩

end Barplots
